import Mathlib

/-!
Verification of the VoteBot/Votryx voting application core.

This file gives a shallow embedding, in Lean 4, of the core data model and
operations of the Votryx application (the most advanced variant of the
repository): the statistics state manager, the bounded log history, the
user-agent normalizer, the configuration loader/saver, the run loop's
exponential backoff, the selector-resolution loop, batch aggregation, the
click-retry logic, and the driver-session lifecycle of a batch.  External
effects (the Selenium driver, the clock, the file system) are modelled by
explicit environment values describing the outcome of each external call;
everything else is translated directly from the Python source.
-/

namespace Votryx

/-! ## State manager (`core/state_manager.py`) -/

/-- Embedding of the `VotingStatistics` dataclass.  The Python `start_time`
is a float timestamp or `None`; we model timestamps as rationals. -/
structure VotingStatistics where
  vote_count : Nat
  error_count : Nat
  success_count : Nat
  failure_count : Nat
  start_time : Option ℚ
  is_running : Bool
  deriving DecidableEq, Repr

/-- The dataclass field defaults: all counters zero, no start time, not
running. -/
def VotingStatistics.initial : VotingStatistics :=
  { vote_count := 0, error_count := 0, success_count := 0, failure_count := 0
    start_time := none, is_running := false }

/-- Embedding of `VotingStatistics.with_vote`: increments `vote_count` and
`success_count` together, leaving the other fields unchanged. -/
def VotingStatistics.with_vote (s : VotingStatistics) : VotingStatistics :=
  { vote_count := s.vote_count + 1
    error_count := s.error_count
    success_count := s.success_count + 1
    failure_count := s.failure_count
    start_time := s.start_time
    is_running := s.is_running }

/-- Embedding of `VotingStatistics.with_error`: increments `error_count` and
`failure_count` together, leaving the other fields unchanged. -/
def VotingStatistics.with_error (s : VotingStatistics) : VotingStatistics :=
  { vote_count := s.vote_count
    error_count := s.error_count + 1
    success_count := s.success_count
    failure_count := s.failure_count + 1
    start_time := s.start_time
    is_running := s.is_running }

/-- Embedding of `VotingStatistics.with_running`.  The call to `time.time()`
is abstracted into the explicit `now` argument. -/
def VotingStatistics.with_running (s : VotingStatistics) (running : Bool)
    (now : ℚ) : VotingStatistics :=
  let new_start : Option ℚ :=
    if running ∧ ¬ s.is_running then some now
    else if ¬ running ∧ s.is_running then none
    else s.start_time
  { vote_count := s.vote_count
    error_count := s.error_count
    success_count := s.success_count
    failure_count := s.failure_count
    start_time := new_start
    is_running := running }

/-- Embedding of `VotingStatistics.reset_counters`. -/
def VotingStatistics.reset_counters (_ : VotingStatistics) : VotingStatistics :=
  { vote_count := 0, error_count := 0, success_count := 0, failure_count := 0
    start_time := none, is_running := false }

/-- The mutating operations `StateManager` can apply to its statistics
snapshot (`increment_vote`, `increment_error`, `set_running`,
`reset_counters`).  `set_running` carries the clock value observed by
`time.time()`. -/
inductive StateOp where
  | increment_vote
  | increment_error
  | set_running (running : Bool) (now : ℚ)
  | reset_counters
  deriving DecidableEq, Repr

/-- One `StateManager` operation applied to the current snapshot, exactly as
the Python methods dispatch to the `VotingStatistics` functional updates. -/
def applyStateOp (s : VotingStatistics) : StateOp → VotingStatistics
  | .increment_vote => s.with_vote
  | .increment_error => s.with_error
  | .set_running running now => s.with_running running now
  | .reset_counters => s.reset_counters

/-- The snapshot reached from the initial state by a sequence of
`StateManager` operations. -/
def runStateOps (ops : List StateOp) : VotingStatistics :=
  ops.foldl applyStateOp VotingStatistics.initial

/-! ## Log history (`core/state_manager.py`, class `LogHistory`) -/

/-- Embedding of the `LogEntry` dataclass. -/
structure LogEntry where
  timestamp : String
  level : String
  message : String
  deriving DecidableEq, Repr

/-- Embedding of the `LogHistory` class state: the size limit and the list
of entries. -/
structure LogHistory where
  max_entries : Nat
  entries : List LogEntry
  deriving DecidableEq, Repr

/-- The state built by `LogHistory(max_entries)` (and `LogHistory()` uses the
default 500): an empty entry list. -/
def LogHistory.mk0 (max_entries : Nat) : LogHistory :=
  { max_entries := max_entries, entries := [] }

/-- Python's negative-slice `l[-m:]`: the last `m` elements for `m ≥ 1`, and
the whole list for `m = 0` (because `l[-0:]` is `l[0:]`). -/
def pySliceLast (l : List α) (m : Nat) : List α :=
  if m = 0 then l else l.drop (l.length - m)

/-- Embedding of `LogHistory.add`: append the new entry, then truncate to the
last `max_entries` entries when the cap is exceeded.  The timestamp produced
by `datetime.now().strftime(...)` is abstracted into the entry argument. -/
def LogHistory.add (h : LogHistory) (e : LogEntry) : LogHistory :=
  let es := h.entries ++ [e]
  if h.max_entries < es.length then
    { h with entries := pySliceLast es h.max_entries }
  else
    { h with entries := es }

/-- A whole sequence of `add` calls starting from a fresh history. -/
def LogHistory.addAll (max_entries : Nat) (l : List LogEntry) : LogHistory :=
  l.foldl LogHistory.add (LogHistory.mk0 max_entries)

/-! ## User-agent normalization (`core/validation.py`) -/

/-- Python's default notion of whitespace used by `str.strip()`. -/
def isPySpace (c : Char) : Bool :=
  c = ' ' ∨ c = '\t' ∨ c = '\n' ∨ c = '\x0b' ∨ c = '\x0c' ∨ c = '\r'

/-- Python's `str.strip()` on the underlying character list: drop leading and
trailing whitespace. -/
def pyStripList (l : List Char) : List Char :=
  ((l.dropWhile isPySpace).reverse.dropWhile isPySpace).reverse

/-- Python's `str.strip()`. -/
def pyStrip (s : String) : String := ⟨pyStripList s.data⟩

/-- ASCII case folding of one character (the inputs of interest are ASCII,
where Python's `str.lower()` agrees with ASCII folding). -/
def pyLowerChar (c : Char) : Char :=
  if 'A' ≤ c ∧ c ≤ 'Z' then Char.ofNat (c.toNat + 32) else c

/-- Python's `str.lower()` on ASCII strings. -/
def pyLower (s : String) : String := ⟨s.data.map pyLowerChar⟩

/-- A JSON-ish list item handed to `normalize_user_agents`: either a string
or a non-string value (the function only tests `isinstance(ua, str)`, so all
non-strings behave alike). -/
inductive UAItem where
  | str (s : String)
  | nonstr
  deriving DecidableEq, Repr

/-- The loop body of `InputValidator.normalize_user_agents`, with the `seen`
set modelled as the list of lowered strings added so far. -/
def normalizeUAGo : List UAItem → List String → List String
  | [], _ => []
  | .nonstr :: rest, seen => normalizeUAGo rest seen
  | .str ua :: rest, seen =>
      let stripped := pyStrip ua
      if stripped.data.isEmpty ∨ stripped.length < 10 then
        normalizeUAGo rest seen
      else if pyLower stripped ∈ seen then
        normalizeUAGo rest seen
      else
        stripped :: normalizeUAGo rest (pyLower stripped :: seen)

/-- Embedding of `InputValidator.normalize_user_agents`: drop non-strings,
trim, drop entries shorter than 10 characters, and deduplicate
case-insensitively keeping the first occurrence. -/
def normalize_user_agents (agents : List UAItem) : List String :=
  normalizeUAGo agents []

/-! ## Configuration (`core/config.py`) -/

/-- A JSON value, as produced by `json.load` and consumed by `json.dump`.
Numbers are modelled as rationals (the defaults are all integers). -/
inductive JValue where
  | null
  | bool (b : Bool)
  | num (n : ℚ)
  | str (s : String)
  | arr (xs : List JValue)
  | obj (fields : List (String × JValue))

/-- A JSON object: an ordered association list, as Python dicts preserve
insertion order.  `json.load` never produces duplicate keys. -/
abbrev JObj := List (String × JValue)

/-- Key lookup in a JSON object (Python `d[k]` / `d.get(k)`). -/
def jlookup : JObj → String → Option JValue
  | [], _ => none
  | (k, v) :: rest, key => if k = key then some v else jlookup rest key

/-- Python dict merge `{**a, **b}`: the keys of `a` in order with values
overridden by `b` where present, followed by the keys of `b` absent from
`a`, in order. -/
def dictMerge (a b : JObj) : JObj :=
  a.map (fun p => (p.1, (jlookup b p.1).getD p.2)) ++
    b.filter (fun p => (jlookup a p.1).isNone)

/-- The `ConfigurationManager.DEFAULT_CONFIG` literal. -/
def DEFAULT_CONFIG : JObj :=
  [ ("paths", .obj []),
    ("target_url", .str "https://distrokid.com/spotlight/hasanarthuraltunta/vote/"),
    ("pause_between_votes", .num 3),
    ("batch_size", .num 1),
    ("max_errors", .num 3),
    ("parallel_workers", .num 2),
    ("headless", .bool true),
    ("timeout_seconds", .num 15),
    ("use_selenium_manager", .bool false),
    ("use_random_user_agent", .bool true),
    ("block_images", .bool true),
    ("user_agents", .arr []),
    ("vote_selectors", .arr []),
    ("backoff_seconds", .num 5),
    ("backoff_cap_seconds", .num 60) ]

/-- The expression reading the defaults' paths sub-dict,
`DEFAULT_CONFIG.get("paths", ...)`, modelled directly (it is the literal
empty dict). -/
def defaultPaths : JObj :=
  match jlookup DEFAULT_CONFIG "paths" with
  | some (.obj p) => p
  | _ => []

/-- The `"paths"` sub-dict of loaded data: `data.get("paths", {})`.  When the
stored value is present but not a dict, the dict unpacking
`{**default_paths, **data_paths}` raises `TypeError`, which the surrounding
`try` turns into the defaults; that error case is `none` here. -/
def pathsOf (data : JObj) : Option JObj :=
  match jlookup data "paths" with
  | some (.obj p) => some p
  | some _ => none
  | none => some []

/-- Embedding of `ConfigurationManager._load_config` applied to
successfully parsed file contents `data`: merge with the defaults, then
overwrite the `"paths"` entry with the merged paths sub-dict.  Overwriting
an existing key is expressed as a merge with a singleton dict, which has the
same lookup semantics.  Any exception (including the non-dict `"paths"`
case) yields a copy of the defaults. -/
def load_config (data : JObj) : JObj :=
  match pathsOf data with
  | none => DEFAULT_CONFIG
  | some data_paths =>
      dictMerge (dictMerge DEFAULT_CONFIG data)
        [("paths", .obj (dictMerge defaultPaths data_paths))]

/-! ## Atomic configuration save (`ConfigurationManager.save`) -/

/-- The file-system state touched by `save`: the persisted configuration
file's contents (if the file exists) and the temporary file's contents (if
one currently exists).  `C` is the type of file contents. -/
structure FsState (C : Type) where
  config_file : Option C
  temp_file : Option C
  deriving DecidableEq, Repr

/-- Effect of `tempfile.mkstemp(...)`: a fresh empty temporary file. -/
def fsMkstemp (fs : FsState C) (empty : C) : FsState C :=
  { fs with temp_file := some empty }

/-- Effect of `json.dump(self.config, temp_file)`: the temporary file now
holds the serialized configuration. -/
def fsWriteTemp (fs : FsState C) (content : C) : FsState C :=
  { fs with temp_file := (fs.temp_file).map (fun _ => content) }

/-- Effect of `Path(temp_path).replace(self.config_path)`: the temporary
file is renamed over the configuration file. -/
def fsReplace (fs : FsState C) : FsState C :=
  { config_file := fs.temp_file.orElse (fun _ => fs.config_file), temp_file := none }

/-- Effect of `Path(temp_path).unlink(missing_ok=True)`. -/
def fsUnlink (fs : FsState C) : FsState C :=
  { fs with temp_file := none }

/-- Which step of `save` fails, if any.  `mkstemp_fails` models an exception
from `mkdir`/`mkstemp` before the `try` block; the other two are exceptions
inside it. -/
inductive SaveOutcome where
  | mkstemp_fails
  | write_fails
  | replace_fails
  | success
  deriving DecidableEq, Repr

/-- Embedding of `ConfigurationManager.save` under a failure scenario: the
resulting file-system state, paired with `true` when the call raises.  On a
failure inside the `try`, the `except` handler unlinks the temporary file
and re-raises. -/
def config_save (fs : FsState C) (empty content : C) (o : SaveOutcome) :
    FsState C × Bool :=
  match o with
  | .mkstemp_fails => (fs, true)
  | .write_fails => (fsUnlink (fsMkstemp fs empty), true)
  | .replace_fails => (fsUnlink (fsWriteTemp (fsMkstemp fs empty) content), true)
  | .success => (fsReplace (fsWriteTemp (fsMkstemp fs empty) content), false)

/-! ## Run-loop backoff (`VotryxApp.run_bot`) -/

/-- The configuration fields driving the backoff logic of `run_bot`.
Backoff durations are Python floats; they are modelled as rationals, which
is exact here because the only operations are doubling and `min`. -/
structure BackoffConfig where
  backoff_seconds : ℚ
  backoff_cap_seconds : ℚ
  max_errors : Nat
  deriving DecidableEq, Repr

/-- The loop-carried state of `run_bot`: the consecutive-error counter and
the current backoff delay. -/
structure RunState where
  consecutive_errors : Nat
  backoff_delay : ℚ
  deriving DecidableEq, Repr

/-- The state `run_bot` initializes before its loop: zero consecutive
errors, delay at the base value. -/
def initialRunState (cfg : BackoffConfig) : RunState :=
  { consecutive_errors := 0, backoff_delay := cfg.backoff_seconds }

/-- One iteration of the `run_bot` loop given the batch outcome, in a run
where the stop signal is never set: returns the next state and the backoff
wait performed this iteration, if any.  On success both the counter and the
delay reset; on failure the counter increments, and when it reaches
`max_errors` the loop waits `min(backoff_delay, backoff_cap_seconds)`,
resets the counter and doubles the delay (capped). -/
def runBotStep (cfg : BackoffConfig) (s : RunState) (batch_ok : Bool) :
    RunState × Option ℚ :=
  if batch_ok then
    ({ consecutive_errors := 0, backoff_delay := cfg.backoff_seconds }, none)
  else
    let ce := s.consecutive_errors + 1
    if cfg.max_errors ≤ ce then
      ({ consecutive_errors := 0
         backoff_delay := min (s.backoff_delay * 2) cfg.backoff_cap_seconds },
       some (min s.backoff_delay cfg.backoff_cap_seconds))
    else
      ({ consecutive_errors := ce, backoff_delay := s.backoff_delay }, none)

/-- The `run_bot` loop over a sequence of batch outcomes, collecting the
backoff waits it performs in order. -/
def runBotTrace (cfg : BackoffConfig) : RunState → List Bool → RunState × List ℚ
  | s, [] => (s, [])
  | s, b :: rest =>
      ((runBotTrace cfg (runBotStep cfg s b).1 rest).1,
        (runBotStep cfg s b).2.toList ++ (runBotTrace cfg (runBotStep cfg s b).1 rest).2)

/-- Embedding of `VotingEngine.calculate_backoff_delay` (the refactored form
of the same backoff schedule). -/
def calculate_backoff_delay (cfg : BackoffConfig) (consecutive_errors : Nat) : ℚ :=
  min (cfg.backoff_seconds * 2 ^ (consecutive_errors - 1)) cfg.backoff_cap_seconds

/-! ## Selector resolution (`VotingSession.locate_vote_button`) -/

/-- The outcome of `wait.until(EC.element_to_be_clickable(...))` for one
selector of the ordered list: a clickable element, or an exception
(typically `TimeoutException`).  `E` is the exception type, `A` the element
type. -/
inductive SelAttempt (E A : Type) where
  | clickable (element : A)
  | failure (exc : E)
  deriving DecidableEq, Repr

/-- The loop of `locate_vote_button` with the running `last_exc` variable:
return the first clickable element; otherwise remember the exception and
continue; after the loop, re-raise the last exception if any, else return
`None`.  (The best-effort `scrollIntoView` script swallows its own errors
and does not affect the result.) -/
def locateGo : List (SelAttempt E A) → Option E → Except E (Option A)
  | [], none => .ok none
  | [], some exc => .error exc
  | .clickable e :: _, _ => .ok (some e)
  | .failure exc :: rest, _ => locateGo rest (some exc)

/-- Embedding of `VotingSession.locate_vote_button`, as a function of the
per-selector wait outcomes (listed in selector order). -/
def locate_vote_button (attempts : List (SelAttempt E A)) : Except E (Option A) :=
  locateGo attempts none

/-- The element of the earliest selector whose wait produced a clickable
match, if any (the specification's notion of first-match-wins). -/
def firstClickable : List (SelAttempt E A) → Option A
  | [] => none
  | .clickable e :: _ => some e
  | .failure _ :: rest => firstClickable rest

/-- The exception of the last attempt, when every attempt failed; `none` as
soon as some attempt is clickable or the list is empty. -/
def lastFailureExc : List (SelAttempt E A) → Option E
  | [] => none
  | [.failure exc] => some exc
  | .clickable _ :: _ => none
  | .failure _ :: rest => lastFailureExc rest

/-! ## Click with one retry (`VotryxApp._complete_vote`) -/

/-- The externally visible actions of one session's vote attempt, used to
state trace properties: driver creation, click statements, page refresh,
selector re-resolution, storage clearing, and session teardown
(`_teardown_driver`: quit the driver, unregister it, and remove its
temporary profile directory). -/
inductive VoteAction where
  | create
  | click
  | refresh
  | resolve
  | clear_state
  | teardown
  deriving DecidableEq, Repr

/-- The outcome of the retry's `_locate_vote_button(driver, wait)` call:
an exception, a `None` result, or a fresh clickable button. -/
inductive RelocateOutcome where
  | raises
  | found_none
  | found
  deriving DecidableEq, Repr

/-- The outcomes of the external calls `_complete_vote` can make: whether
the first `.click()` returns normally, whether `driver.refresh()` does, the
result of re-resolution, and whether the retry's `.click()` does. -/
structure ClickEnv where
  first_click_ok : Bool
  refresh_ok : Bool
  relocate : RelocateOutcome
  second_click_ok : Bool
  deriving DecidableEq, Repr

/-- Whether the retry's re-resolution produced a clickable button. -/
def RelocateOutcome.isFound : RelocateOutcome → Bool
  | .found => true
  | _ => false

/-- Embedding of `_complete_vote`: the action trace and the returned
boolean.  `button_present` says whether the `vote_button` argument is an
element (clicking `None` raises `AttributeError` and lands in the retry
path).  Every branch ends with the `finally` block: clear browser state,
tear the session down. -/
def complete_vote (button_present : Bool) (env : ClickEnv) :
    List VoteAction × Bool :=
  let fin : List VoteAction := [.clear_state, .teardown]
  if button_present && env.first_click_ok then
    ([.click] ++ fin, true)
  else if !env.refresh_ok then
    ([.click, .refresh] ++ fin, false)
  else
    match env.relocate with
    | .raises => ([.click, .refresh, .resolve] ++ fin, false)
    | .found_none => ([.click, .refresh, .resolve, .click] ++ fin, false)
    | .found => ([.click, .refresh, .resolve, .click] ++ fin, env.second_click_ok)

/-! ## Session lifecycle of one batch unit
(`VotryxApp._prepare_vote_session` and `VotryxApp.run_batch`) -/

/-- The outcome of the guarded preparation block of `_prepare_vote_session`
(`driver.get`, `_wait_for_document_ready`, `_locate_vote_button`): either
some step raised (`TimeoutException` or any other exception, both caught),
or the block returned a session whose vote button may be `None`. -/
inductive PrepOutcome where
  | raises
  | located (button_present : Bool)
  deriving DecidableEq, Repr

/-- The environment of one batch unit: the outcome of each external call and
each stop-flag check on its path through `_prepare_vote_session` and
`run_batch`. -/
structure UnitEnv where
  driver_created : Bool
  stop_after_create : Bool
  set_timeout_raises : Bool
  prep : PrepOutcome
  stop_at_result : Bool
  click : ClickEnv
  deriving DecidableEq, Repr

/-- How `_prepare_vote_session` finished, as seen by `run_batch` through the
future: an exception, a `None` return, or a session triple. -/
inductive PrepResult where
  | raised
  | failed
  | session (button_present : Bool)
  deriving DecidableEq, Repr

/-- Embedding of `_prepare_vote_session`: the action trace and how the call
finished.  When `create_driver` returns `None`, no driver exists (the
profile directory is discarded).  After registration, a set stop flag tears
the session down.  `driver.set_page_load_timeout` is called after
registration but before the `try` block, so an exception there propagates
without teardown.  Inside the `try`, an exception is caught and the
`finally` block tears down because `keep_driver` is still false; a normal
return keeps the driver. -/
def prepare_vote_session (env : UnitEnv) : List VoteAction × PrepResult :=
  if !env.driver_created then ([], .failed)
  else if env.stop_after_create then ([.create, .teardown], .failed)
  else if env.set_timeout_raises then ([.create], .raised)
  else
    match env.prep with
    | .raises => ([.create, .teardown], .failed)
    | .located bp => ([.create], .session bp)

/-- One unit as processed by `run_batch`: the unit's action trace and its
contribution to the counters (`none` when the stop path skips it, `some b`
when it is counted as success or failure).  A future that raised, or a
`None` session, counts as a failure; a live session is either torn down on
the stop path or handed to `_complete_vote`. -/
def run_batch_unit (env : UnitEnv) : List VoteAction × Option Bool :=
  let prep := prepare_vote_session env
  match prep.2 with
  | .raised => (prep.1, some false)
  | .failed => (prep.1, some false)
  | .session bp =>
      if env.stop_at_result then (prep.1 ++ [.teardown], none)
      else
        let cv := complete_vote bp env.click
        (prep.1 ++ cv.1, some cv.2)

/-- The concatenated action trace of a whole batch. -/
def run_batch_events (envs : List UnitEnv) : List VoteAction :=
  (envs.map (fun e => (run_batch_unit e).1)).flatten

/-- One step of the result loop of `run_batch`: update the
`(successes, failures)` pair with one unit's contribution. -/
def countStep (acc : Nat × Nat) (env : UnitEnv) : Nat × Nat :=
  match (run_batch_unit env).2 with
  | none => acc
  | some true => (acc.1 + 1, acc.2)
  | some false => (acc.1, acc.2 + 1)

/-- The `(successes, failures)` counters as accumulated by the result loop
of `run_batch`. -/
def run_batch_counts (envs : List UnitEnv) : Nat × Nat :=
  envs.foldl countStep (0, 0)

/-- The boolean `run_batch` returns: `False` exactly when `successes == 0`. -/
def run_batch_ok (envs : List UnitEnv) : Bool :=
  (run_batch_counts envs).1 ≠ 0

/-- Whether a unit is counted as a success by `run_batch`. -/
def isUnitSuccess (env : UnitEnv) : Bool :=
  match (run_batch_unit env).2 with
  | some true => true
  | _ => false

/-- Whether a unit is counted as a failure by `run_batch`. -/
def isUnitFailure (env : UnitEnv) : Bool :=
  match (run_batch_unit env).2 with
  | some false => true
  | _ => false

/-! ## Theorems -/

/-- The paired-counter invariant is preserved by every single operation. -/
theorem applyStateOp_preserves (s : VotingStatistics) (op : StateOp)
    (h1 : s.vote_count = s.success_count)
    (h2 : s.error_count = s.failure_count) :
    (applyStateOp s op).vote_count = (applyStateOp s op).success_count ∧
      (applyStateOp s op).error_count = (applyStateOp s op).failure_count := by
  cases op <;>
    simp [applyStateOp, VotingStatistics.with_vote, VotingStatistics.with_error,
      VotingStatistics.with_running, VotingStatistics.reset_counters, h1, h2]

/-- The paired-counter invariant is preserved by any sequence of operations
applied from an arbitrary invariant-satisfying state. -/
theorem foldStateOps_preserves (ops : List StateOp) :
    ∀ s : VotingStatistics,
      s.vote_count = s.success_count → s.error_count = s.failure_count →
        (ops.foldl applyStateOp s).vote_count
            = (ops.foldl applyStateOp s).success_count ∧
          (ops.foldl applyStateOp s).error_count
            = (ops.foldl applyStateOp s).failure_count := by
  induction ops with
  | nil => exact fun s h1 h2 => ⟨h1, h2⟩
  | cons op rest ih =>
      intro s h1 h2
      have h := applyStateOp_preserves s op h1 h2
      exact ih (applyStateOp s op) h.1 h.2

/-- C10: in every statistics snapshot reachable from the initial state by
`StateManager` operations, `vote_count` equals `success_count` and
`error_count` equals `failure_count`, because `with_vote` increments the
first pair together and `with_error` the second, each leaving the other
fields unchanged. -/
theorem stats_counters_paired (ops : List StateOp) :
    (runStateOps ops).vote_count = (runStateOps ops).success_count ∧
      (runStateOps ops).error_count = (runStateOps ops).failure_count :=
  foldStateOps_preserves ops VotingStatistics.initial rfl rfl

/-- One `add` step on a history holding the last `max` entries of `processed`
yields the last `max` entries of `processed ++ [e]`, for a positive cap. -/
theorem LogHistory.add_suffix (max : Nat) (hm : 1 ≤ max)
    (processed : List LogEntry) (e : LogEntry) :
    LogHistory.add
        { max_entries := max
          entries := processed.drop (processed.length - max) } e =
      { max_entries := max
        entries :=
          (processed ++ [e]).drop ((processed ++ [e]).length - max) } := by
  rcases le_or_lt max processed.length with hle | hlt
  · have hlen : (processed.drop (processed.length - max)).length = max := by
      rw [List.length_drop]; omega
    have hA1 : 1 ≤ (processed.drop (processed.length - max)).length := by
      rw [hlen]; omega
    have hcond :
        max < (processed.drop (processed.length - max) ++ [e]).length := by
      rw [List.length_append, hlen]; simp
    have hm0 : ¬ max = 0 := by omega
    simp only [LogHistory.add, hcond, if_true, pySliceLast, hm0, if_false]
    congr 1
    have e1 : (processed.drop (processed.length - max) ++ [e]).length - max = 1 := by
      rw [List.length_append, hlen]; simp
    have e2 : (processed ++ [e]).length - max = processed.length + 1 - max := by
      rw [List.length_append]; simp
    rw [e1, e2,
      List.drop_append_of_le_length hA1,
      List.drop_drop,
      List.drop_append_of_le_length (by omega : processed.length + 1 - max ≤ processed.length),
      (by omega : processed.length - max + 1 = processed.length + 1 - max)]
  · have h0 : processed.length - max = 0 := by omega
    have h0' : processed.length + 1 - max = 0 := by omega
    have hcond : ¬ max < processed.length + 1 := by omega
    simp [LogHistory.add, h0, h0', hcond]

/-- Folding any sequence of `add` calls from a fresh history with positive
cap leaves exactly the last `max` entries, in order. -/
theorem LogHistory.addAll_entries (max : Nat) (hm : 1 ≤ max)
    (l : List LogEntry) :
    LogHistory.addAll max l =
      { max_entries := max, entries := l.drop (l.length - max) } := by
  induction l using List.reverseRecOn with
  | nil => simp [LogHistory.addAll, LogHistory.mk0]
  | append_singleton l e ih =>
      unfold LogHistory.addAll at ih ⊢
      rw [List.foldl_append, ih, List.foldl_cons, List.foldl_nil,
        LogHistory.add_suffix max hm l e]

/-- C9: the in-app log history is an append-only bounded buffer with cap
500 (the `LogHistory()` default used by `StateManager`): after any sequence
of `add` calls it holds exactly the most recently added 500 entries in
insertion order (all entries, when fewer than 500 were added), evicting the
oldest ones. -/
theorem log_history_bounded (l : List LogEntry) :
    (LogHistory.addAll 500 l).entries = l.drop (l.length - 500) ∧
      (LogHistory.addAll 500 l).entries.length ≤ 500 := by
  have h := LogHistory.addAll_entries 500 (by omega) l
  have h1 : (LogHistory.addAll 500 l).entries = l.drop (l.length - 500) := by
    rw [h]
  refine ⟨h1, ?_⟩
  rw [h1, List.length_drop]
  omega

/-- C7 (counterexample): on the specification's example input, the
normalizer does not return `["UA one", "UA two"]` — both survivors of the
claimed output are only 6 characters long, below the 10-character minimum
the code enforces. -/
theorem normalize_spec_example_refuted :
    normalize_user_agents
        [.str "UA one", .str "UA ONE", .str "short", .nonstr, .str "UA two"]
      ≠ ["UA one", "UA two"] := by decide

/-- C7 (amended): the example input normalizes to `[]`, because every string
entry is shorter than 10 characters after trimming; the stated rules
(non-strings dropped, short entries dropped, case-insensitive
deduplication keeping the first occurrence) are exhibited on entries of
length ≥ 10. -/
theorem normalize_examples :
    normalize_user_agents
        [.str "UA one", .str "UA ONE", .str "short", .nonstr, .str "UA two"]
      = [] ∧
      normalize_user_agents
          [.str "Valid User Agent 1", .str "VALID USER AGENT 1", .nonstr,
            .str "short", .str "Valid User Agent 2"]
        = ["Valid User Agent 1", "Valid User Agent 2"] :=
  ⟨by decide, by decide⟩

/-- C5: `_complete_vote` performs no retry when the first click succeeds,
and exactly one retry (one `refresh`, at most one re-resolution, at most
one further click) when it does not; the unit succeeds exactly when the
first click succeeds or the full retry (refresh, re-resolve to a button,
click) succeeds, and is otherwise reported as a failure. -/
theorem complete_vote_single_retry (bp : Bool) (env : ClickEnv) :
    ((complete_vote bp env).1.count VoteAction.refresh
        = if bp && env.first_click_ok then 0 else 1) ∧
      (complete_vote bp env).1.count VoteAction.click ≤ 2 ∧
      (complete_vote bp env).1.count VoteAction.resolve ≤ 1 ∧
      ((complete_vote bp env).2
        = (bp && env.first_click_ok
            || env.refresh_ok && env.relocate.isFound && env.second_click_ok)) := by
  rcases env with ⟨f, r, rel, s⟩
  cases rel <;> cases bp <;> cases f <;> cases r <;> cases s <;> decide

/-- The result loop of `run_batch` sums each unit's own contribution: no
unit outcome — including an exception from the unit's future — can stop the
remaining units from being counted. -/
theorem run_batch_countFold (envs : List UnitEnv) :
    ∀ a b : Nat,
      envs.foldl countStep (a, b)
        = (a + envs.countP isUnitSuccess, b + envs.countP isUnitFailure) := by
  induction envs with
  | nil => simp
  | cons env rest ih =>
      intro a b
      rcases hres : (run_batch_unit env).2 with _ | bres
      · simp [List.foldl_cons, countStep, hres, ih, List.countP_cons,
          isUnitSuccess, isUnitFailure]
      · cases bres <;>
          simp [List.foldl_cons, countStep, hres, ih, List.countP_cons,
            isUnitSuccess, isUnitFailure] <;> omega

/-- C4: a batch reports `(successes, failures)` equal to the per-unit counts
over all units — a unit whose future raised is counted as exactly one
failure and the remaining units are still processed — and the batch is
marked ok exactly when at least one unit succeeded. -/
theorem run_batch_ok_iff (envs : List UnitEnv) :
    run_batch_counts envs
        = (envs.countP isUnitSuccess, envs.countP isUnitFailure) ∧
      (run_batch_ok envs = true ↔ 1 ≤ (run_batch_counts envs).1) := by
  constructor
  · have h := run_batch_countFold envs 0 0
    simpa [run_batch_counts] using h
  · simp [run_batch_ok, Nat.one_le_iff_ne_zero]

/-- C8: `ConfigurationManager.save` is atomic.  Starting from a state with
no leftover temporary file: on any failing step, the persisted
configuration file is unchanged, the temporary file is gone, and the error
propagates (the call raises); on success the configuration file holds the
new contents and the temporary file is gone. -/
theorem config_save_atomic {C : Type} (fs : FsState C) (h : fs.temp_file = none)
    (empty content : C) (o : SaveOutcome) :
    (config_save fs empty content o).1.config_file
        = (if o = .success then some content else fs.config_file) ∧
      (config_save fs empty content o).1.temp_file = none ∧
      (config_save fs empty content o).2 = decide (o ≠ .success) := by
  cases o <;>
    simp [config_save, fsMkstemp, fsWriteTemp, fsReplace, fsUnlink, Option.orElse, h]

/-- Witness for C8 at a concrete state: a failed rename leaves the old
contents in place, removes the temporary file, and raises. -/
theorem config_save_atomic_witness :
    (config_save (⟨some 1, none⟩ : FsState Nat) 0 2 .replace_fails).1.config_file
        = some 1 ∧
      (config_save (⟨some 1, none⟩ : FsState Nat) 0 2 .replace_fails).1.temp_file
        = none ∧
      (config_save (⟨some 1, none⟩ : FsState Nat) 0 2 .replace_fails).2 = true := by
  have h := config_save_atomic (⟨some 1, none⟩ : FsState Nat) rfl 0 2 .replace_fails
  exact ⟨by simpa using h.1, h.2.1, by simpa using h.2.2⟩

/-- If some attempt is clickable, the loop returns the earliest one, for any
pending `last_exc`. -/
theorem locateGo_first {E A : Type} (attempts : List (SelAttempt E A)) :
    ∀ (acc : Option E) (e : A),
      firstClickable attempts = some e → locateGo attempts acc = .ok (some e) := by
  induction attempts with
  | nil => intro acc e h; simp [firstClickable] at h
  | cons a rest ih =>
      intro acc e h
      cases a with
      | clickable x =>
          simp only [firstClickable, Option.some.injEq] at h
          rw [← h]; rfl
      | failure exc =>
          simp only [firstClickable] at h
          exact ih (some exc) e h

/-- If no attempt is clickable and the list is non-empty, the loop raises the
exception of the last attempt, for any pending `last_exc`. -/
theorem locateGo_all_failed {E A : Type} (attempts : List (SelAttempt E A)) :
    ∀ acc : Option E,
      firstClickable attempts = none → attempts ≠ [] →
        ∃ exc, attempts.getLast? = some (.failure exc) ∧
          locateGo attempts acc = .error exc := by
  induction attempts with
  | nil => intro acc _ hne; exact absurd rfl hne
  | cons a rest ih =>
      intro acc h _
      cases a with
      | clickable x => simp [firstClickable] at h
      | failure exc =>
          rcases rest with _ | ⟨b, rest'⟩
          · exact ⟨exc, rfl, rfl⟩
          · have h' : firstClickable (b :: rest') = none := by
              simpa [firstClickable] using h
            obtain ⟨exc', hl, he⟩ := ih (some exc) h' (by simp)
            exact ⟨exc', by rw [List.getLast?_cons_cons]; exact hl, he⟩

/-- C3: selector resolution is first-match-wins.  For a non-empty ordered
selector list, `locate_vote_button` returns the element of the earliest
selector whose clickable wait succeeded (later matches are never chosen);
when no selector yields a clickable match, it raises the last selector's
exception instead of returning an element. -/
theorem locate_vote_button_first_match {E A : Type}
    (attempts : List (SelAttempt E A)) (h : attempts ≠ []) :
    (∀ e, firstClickable attempts = some e →
        locate_vote_button attempts = .ok (some e)) ∧
      (firstClickable attempts = none →
        ∃ exc, attempts.getLast? = some (.failure exc) ∧
          locate_vote_button attempts = .error exc) :=
  ⟨fun e he => locateGo_first attempts none e he,
   fun hn => locateGo_all_failed attempts none hn h⟩

/-- Witness for C3 at concrete selector lists: with outcomes
fail-click-click the second selector's element is returned, and with
fail-fail the second (last) failure is raised. -/
theorem locate_vote_button_first_match_witness :
    locate_vote_button
        [SelAttempt.failure "timeout 1", SelAttempt.clickable 7,
          SelAttempt.clickable 9]
      = Except.ok (some 7) ∧
      locate_vote_button
          ([SelAttempt.failure "timeout 1", SelAttempt.failure "timeout 2"]
            : List (SelAttempt String Nat))
        = Except.error "timeout 2" := by
  constructor
  · exact
      (locate_vote_button_first_match
        [SelAttempt.failure "timeout 1", SelAttempt.clickable 7,
          SelAttempt.clickable 9] (by simp)).1 7 rfl
  · obtain ⟨exc, hl, he⟩ :=
      (locate_vote_button_first_match
        ([SelAttempt.failure "timeout 1", SelAttempt.failure "timeout 2"]
          : List (SelAttempt String Nat)) (by simp)).2 rfl
    have hev : ([SelAttempt.failure "timeout 1",
        SelAttempt.failure "timeout 2"] : List (SelAttempt String Nat)).getLast?
        = some (SelAttempt.failure "timeout 2") := by decide
    rw [hev] at hl
    have hx : "timeout 2" = exc := by
      injection hl with h1
      injection h1 with h2
    rw [← hx] at he
    exact he

/-- The `finally` block of `_complete_vote` tears the session down exactly
once and never creates a driver, on every branch. -/
theorem complete_vote_counts (bp : Bool) (env : ClickEnv) :
    (complete_vote bp env).1.count VoteAction.teardown = 1 ∧
      (complete_vote bp env).1.count VoteAction.create = 0 := by
  rcases env with ⟨f, r, rel, s⟩
  cases rel <;> cases bp <;> cases f <;> cases r <;> cases s <;> decide

/-- A batch unit whose `set_page_load_timeout` call does not raise tears
down exactly as many drivers as it creates. -/
theorem unit_teardown_balanced (env : UnitEnv)
    (h : env.set_timeout_raises = false) :
    (run_batch_unit env).1.count VoteAction.teardown
      = (run_batch_unit env).1.count VoteAction.create := by
  rcases env with ⟨dc, sac, str, prep, sar, click⟩
  cases h
  cases dc
  · rfl
  · cases sac
    · cases prep with
      | raises => rfl
      | located bp =>
          cases sar
          · have hc := complete_vote_counts bp click
            simp only [run_batch_unit, prepare_vote_session, Bool.not_true,
              Bool.false_eq_true, if_false, if_true, List.count_append]
            simp [hc.1, hc.2]
          · rfl
    · rfl

/-- Any batch in which no session's `set_page_load_timeout` call raises
tears down exactly as many drivers as it creates, on every combination of
preparation, navigation, click and stop outcomes. -/
theorem run_batch_teardown_balanced (envs : List UnitEnv)
    (h : ∀ e ∈ envs, e.set_timeout_raises = false) :
    (run_batch_events envs).count VoteAction.teardown
      = (run_batch_events envs).count VoteAction.create := by
  induction envs with
  | nil => rfl
  | cons e t ih =>
      have hflat : run_batch_events (e :: t)
          = (run_batch_unit e).1 ++ run_batch_events t := by
        simp [run_batch_events]
      rw [hflat, List.count_append, List.count_append,
        unit_teardown_balanced e (h e (by simp)),
        ih (fun x hx => h x (by simp [hx]))]

/-- The failing input for C1: driver creation succeeds, the stop flag is
clear, and `driver.set_page_load_timeout` raises.  The remaining fields are
irrelevant on this path. -/
def leakEnv : UnitEnv :=
  { driver_created := true
    stop_after_create := false
    set_timeout_raises := true
    prep := .located true
    stop_at_result := false
    click :=
      { first_click_ok := true, refresh_ok := true, relocate := .found,
        second_click_ok := true } }

/-- C1 (evaluation at the failing input): when `set_page_load_timeout`
raises after the driver is registered — a preparation failure — the batch
creates one driver session, performs zero teardowns, and counts the unit as
a failure: the session leaks until the run loop's final cleanup, so the
number of teardown calls does not equal the number of sessions created. -/
theorem set_timeout_leak_eval :
    (run_batch_events [leakEnv]).count VoteAction.create = 1 ∧
      (run_batch_events [leakEnv]).count VoteAction.teardown = 0 ∧
      run_batch_counts [leakEnv] = (0, 1) := by decide

/-- The run-loop trace splits over concatenated outcome sequences. -/
theorem runBotTrace_append (cfg : BackoffConfig) (l1 l2 : List Bool) :
    ∀ s : RunState,
      runBotTrace cfg s (l1 ++ l2)
        = ((runBotTrace cfg (runBotTrace cfg s l1).1 l2).1,
            (runBotTrace cfg s l1).2
              ++ (runBotTrace cfg (runBotTrace cfg s l1).1 l2).2) := by
  induction l1 with
  | nil => intro s; simp [runBotTrace]
  | cons b t ih => intro s; simp [runBotTrace, ih, List.append_assoc]

/-- Failures below the `max_errors` threshold only advance the counter: no
wait happens and the backoff delay is untouched. -/
theorem runBot_failures_below_threshold (cfg : BackoffConfig) :
    ∀ (j ce : Nat) (d : ℚ), ce + j < cfg.max_errors →
      runBotTrace cfg ⟨ce, d⟩ (List.replicate j false) = (⟨ce + j, d⟩, []) := by
  intro j
  induction j with
  | zero => intro ce d _; simp [runBotTrace]
  | succ j ih =>
      intro ce d h
      have hstep : runBotStep cfg ⟨ce, d⟩ false = (⟨ce + 1, d⟩, none) := by
        have hlt : ¬ cfg.max_errors ≤ ce + 1 := by omega
        simp [runBotStep, hlt]
      have ht := ih (ce + 1) d (by omega)
      have harith : ce + 1 + j = ce + (j + 1) := by omega
      rw [harith] at ht
      rw [List.replicate_succ]
      simp [runBotTrace, hstep, ht]

/-- One full failure streak of length `max_errors`, started with a clear
counter: the loop waits `min(delay, cap)` once and doubles the delay
(capped). -/
theorem runBot_one_streak (cfg : BackoffConfig) (hm : 1 ≤ cfg.max_errors)
    (d : ℚ) :
    runBotTrace cfg ⟨0, d⟩ (List.replicate cfg.max_errors false)
      = (⟨0, min (d * 2) cfg.backoff_cap_seconds⟩,
          [min d cfg.backoff_cap_seconds]) := by
  obtain ⟨m, hm'⟩ : ∃ m, cfg.max_errors = m + 1 := ⟨cfg.max_errors - 1, by omega⟩
  have hpre := runBot_failures_below_threshold cfg m 0 d (by omega)
  simp only [Nat.zero_add] at hpre
  have hstep : runBotStep cfg ⟨m, d⟩ false
      = (⟨0, min (d * 2) cfg.backoff_cap_seconds⟩,
          some (min d cfg.backoff_cap_seconds)) := by
    have hge : cfg.max_errors ≤ m + 1 := by omega
    simp [runBotStep, hge]
  rw [hm', List.replicate_succ']
  rw [runBotTrace_append, hpre]
  simp [runBotTrace, hstep]

/-- The source's iterative delay recurrence: start at `d`, double and cap
after each backoff wait. -/
def delayIter (cfg : BackoffConfig) (d : ℚ) : Nat → ℚ
  | 0 => d
  | j + 1 => min (delayIter cfg d j * 2) cfg.backoff_cap_seconds

/-- Starting the recurrence after one doubling step is the same as looking
one step further. -/
theorem delayIter_shift (cfg : BackoffConfig) (d : ℚ) :
    ∀ j, delayIter cfg (min (d * 2) cfg.backoff_cap_seconds) j
      = delayIter cfg d (j + 1) := by
  intro j
  induction j with
  | zero => rfl
  | succ j ih => simp [delayIter, ih]

/-- Running `k` consecutive failure streaks of length `max_errors` each:
the loop emits exactly the `k` waits of the iterative schedule, in order. -/
theorem runBot_streaks (cfg : BackoffConfig) (hm : 1 ≤ cfg.max_errors) :
    ∀ (k : Nat) (d : ℚ),
      runBotTrace cfg ⟨0, d⟩ (List.replicate (k * cfg.max_errors) false)
        = (⟨0, delayIter cfg d k⟩,
            (List.range k).map
              (fun j => min (delayIter cfg d j) cfg.backoff_cap_seconds)) := by
  intro k
  induction k with
  | zero => intro d; simp [runBotTrace, delayIter]
  | succ k ih =>
      intro d
      have hsplit : (k + 1) * cfg.max_errors
          = cfg.max_errors + k * cfg.max_errors := by ring
      rw [hsplit, List.replicate_add, runBotTrace_append,
        runBot_one_streak cfg hm d,
        ih (min (d * 2) cfg.backoff_cap_seconds)]
      rw [List.range_succ_eq_map, List.map_cons, List.map_map]
      simp [delayIter, delayIter_shift, Function.comp]

/-- Doubling respects capped equality: two delays indistinguishable below a
nonnegative cap stay indistinguishable after doubling and capping. -/
theorem min_double_congr {x y c : ℚ} (hc : 0 ≤ c) (h : min x c = min y c) :
    min (x * 2) c = min (y * 2) c := by
  rcases le_total x c with hx | hx <;> rcases le_total y c with hy | hy
  · rw [min_eq_left hx, min_eq_left hy] at h
    rw [h]
  · rw [min_eq_left hx, min_eq_right hy] at h
    rw [h]
    rw [min_eq_right (by linarith), min_eq_right (by linarith)]
  · rw [min_eq_right hx, min_eq_left hy] at h
    rw [← h]
    rw [min_eq_right (by linarith), min_eq_right (by linarith)]
  · rw [min_eq_right (by linarith : c ≤ x * 2),
      min_eq_right (by linarith : c ≤ y * 2)]

/-- Below the cap, the iterative doubling schedule agrees with the closed
form `base * 2^j`. -/
theorem delayIter_closed (cfg : BackoffConfig)
    (hc : 0 ≤ cfg.backoff_cap_seconds) (d : ℚ) :
    ∀ j, min (delayIter cfg d j) cfg.backoff_cap_seconds
      = min (d * 2 ^ j) cfg.backoff_cap_seconds := by
  intro j
  induction j with
  | zero => simp [delayIter]
  | succ j ih =>
      have h1 : min (delayIter cfg d (j + 1)) cfg.backoff_cap_seconds
          = min (delayIter cfg d j * 2) cfg.backoff_cap_seconds := by
        rw [delayIter, min_assoc, min_self]
      rw [h1, min_double_congr hc ih, pow_succ, ← mul_assoc]

/-- C2: in the run loop, the wait after the `k`-th consecutive
backoff-triggering failure streak is `min(backoff_seconds * 2^(k-1),
backoff_cap_seconds)` — starting from the loop's initial state, `k` streaks
of `max_errors` failed batches each produce exactly the waits
`min(base * 2^j, cap)` for `j = 0 .. k-1`, in order — and one successful
batch resets the state so that the same schedule restarts from the base
value regardless of the prior state. -/
theorem run_bot_backoff_schedule (cfg : BackoffConfig) (k : Nat) (s : RunState)
    (hm : 1 ≤ cfg.max_errors) (hc : 0 ≤ cfg.backoff_cap_seconds) :
    (runBotTrace cfg (initialRunState cfg)
        (List.replicate (k * cfg.max_errors) false)).2
      = (List.range k).map
          (fun j => min (cfg.backoff_seconds * 2 ^ j) cfg.backoff_cap_seconds) ∧
      (runBotTrace cfg s
          (true :: List.replicate (k * cfg.max_errors) false)).2
        = (List.range k).map
            (fun j => min (cfg.backoff_seconds * 2 ^ j) cfg.backoff_cap_seconds) := by
  have h1 :
      (runBotTrace cfg (initialRunState cfg)
          (List.replicate (k * cfg.max_errors) false)).2
        = (List.range k).map
            (fun j => min (cfg.backoff_seconds * 2 ^ j) cfg.backoff_cap_seconds) := by
    have hstart : initialRunState cfg
        = (⟨0, cfg.backoff_seconds⟩ : RunState) := rfl
    rw [hstart, runBot_streaks cfg hm k cfg.backoff_seconds]
    simp [delayIter_closed cfg hc cfg.backoff_seconds]
  refine ⟨h1, ?_⟩
  have hstep : runBotStep cfg s true = (initialRunState cfg, none) := by
    simp [runBotStep, initialRunState]
  simpa [runBotTrace, hstep] using h1

/-- The default configuration's backoff parameters: base 5 seconds, cap 60
seconds, `max_errors` 3. -/
def defaultBackoffConfig : BackoffConfig :=
  { backoff_seconds := 5, backoff_cap_seconds := 60, max_errors := 3 }

/-- Witness for C2 at the default configuration: three consecutive
three-failure streaks wait 5, then 10, then 20 seconds. -/
theorem run_bot_backoff_schedule_witness :
    (runBotTrace defaultBackoffConfig (initialRunState defaultBackoffConfig)
        (List.replicate (3 * defaultBackoffConfig.max_errors) false)).2
      = [5, 10, 20] := by
  have h := (run_bot_backoff_schedule defaultBackoffConfig 3
    (initialRunState defaultBackoffConfig) (by decide) (by norm_num [defaultBackoffConfig])).1
  rw [h]
  norm_num [List.range_succ, defaultBackoffConfig]

/-- Lookup distributes over list append, preferring the left part. -/
theorem jlookup_append (l1 l2 : JObj) (k : String) :
    jlookup (l1 ++ l2) k
      = match jlookup l1 k with
        | some v => some v
        | none => jlookup l2 k := by
  induction l1 with
  | nil => simp [jlookup]
  | cons p t ih =>
      rcases p with ⟨k', v⟩
      by_cases hk : k' = k
      · simp [jlookup, hk]
      · simp [jlookup, hk, ih]

/-- Lookup in the overridden copy of `a` built by `dictMerge`. -/
theorem jlookup_mapOverride (a b : JObj) (k : String) :
    jlookup (a.map (fun p => (p.1, (jlookup b p.1).getD p.2))) k
      = (jlookup a k).map (fun v => (jlookup b k).getD v) := by
  induction a with
  | nil => simp [jlookup]
  | cons p t ih =>
      rcases p with ⟨k', v⟩
      by_cases hk : k' = k
      · subst hk; simp [jlookup]
      · simp [jlookup, hk, ih]

/-- Lookup in the new-keys part of `dictMerge`: the filter keeps a key of
`b` exactly when it is absent from `a`. -/
theorem jlookup_filterIsNone (a b : JObj) (k : String) :
    jlookup (b.filter (fun p => (jlookup a p.1).isNone)) k
      = (if (jlookup a k).isNone then jlookup b k else none) := by
  induction b with
  | nil => simp [jlookup]
  | cons p t ih =>
      rcases p with ⟨k', v⟩
      by_cases hk : k' = k
      · subst hk
        cases ha : (jlookup a k').isNone <;>
          simp [List.filter_cons, ha, jlookup, ih]
      · cases ha : (jlookup a k').isNone <;>
          simp [List.filter_cons, ha, jlookup, hk, ih]

/-- Lookup semantics of the Python dict merge: the right operand wins where
present, otherwise the left operand's value is kept. -/
theorem jlookup_dictMerge (a b : JObj) (k : String) :
    jlookup (dictMerge a b) k
      = match jlookup b k with
        | some v => some v
        | none => jlookup a k := by
  simp only [dictMerge]
  rw [jlookup_append, jlookup_mapOverride, jlookup_filterIsNone]
  cases ha : jlookup a k <;> cases hb : jlookup b k <;> simp [Option.getD]

/-- Filtering against the empty dict keeps every entry. -/
theorem filter_lookup_nil (l : JObj) :
    l.filter (fun p => (jlookup ([] : JObj) p.1).isNone) = l := by
  induction l with
  | nil => rfl
  | cons p t ih => simp [List.filter_cons, jlookup, ih]

/-- Merging on top of the empty dict is the identity, entry for entry. -/
theorem dictMerge_nil_left (l : JObj) : dictMerge [] l = l := by
  simp only [dictMerge, List.map_nil, List.nil_append]
  exact filter_lookup_nil l

/-- C6: the merge-with-defaults load of `_load_config` is idempotent —
loading the object produced by a previous load (which is what `save` writes
back to disk) yields the same effective settings at every key, including
the nested `paths` dict — so a save/reload round trip does not change the
configuration. -/
theorem load_config_idempotent (data : JObj) (k : String) :
    jlookup (load_config (load_config data)) k = jlookup (load_config data) k := by
  cases hp : pathsOf data with
  | none =>
      have hld : load_config data = DEFAULT_CONFIG := by
        simp [load_config, hp]
      rw [hld]
      have hpD : pathsOf DEFAULT_CONFIG = some [] := rfl
      have hload : load_config DEFAULT_CONFIG
          = dictMerge (dictMerge DEFAULT_CONFIG DEFAULT_CONFIG)
              [("paths", .obj (dictMerge defaultPaths []))] := by
        simp [load_config, hpD]
      rw [hload, jlookup_dictMerge, jlookup_dictMerge]
      by_cases hk : k = "paths"
      · subst hk
        have hsing : jlookup
            [("paths", JValue.obj (dictMerge defaultPaths []))] "paths"
            = some (.obj (dictMerge defaultPaths [])) := by simp [jlookup]
        rw [hsing]
        rfl
      · have hsing : jlookup
            [("paths", JValue.obj (dictMerge defaultPaths []))] k = none := by
          simp only [jlookup]
          rw [if_neg (fun h => hk h.symm)]
        rw [hsing]
        cases hD : jlookup DEFAULT_CONFIG k <;> simp [hD]
  | some p =>
      have hld : load_config data
          = dictMerge (dictMerge DEFAULT_CONFIG data)
              [("paths", .obj (dictMerge defaultPaths p))] := by
        simp [load_config, hp]
      have hsingP : jlookup
          [("paths", JValue.obj (dictMerge defaultPaths p))] "paths"
          = some (.obj (dictMerge defaultPaths p)) := by simp [jlookup]
      have hlook : jlookup (load_config data) "paths"
          = some (.obj (dictMerge defaultPaths p)) := by
        rw [hld, jlookup_dictMerge, hsingP]
      have hp2 : pathsOf (load_config data)
          = some (dictMerge defaultPaths p) := by
        simp [pathsOf, hlook]
      have hdp : defaultPaths = ([] : JObj) := rfl
      have hmm : dictMerge defaultPaths (dictMerge defaultPaths p)
          = dictMerge defaultPaths p := by
        rw [hdp, dictMerge_nil_left]
      have hload2 : ∀ X : JObj, pathsOf X = some (dictMerge defaultPaths p) →
          load_config X
            = dictMerge (dictMerge DEFAULT_CONFIG X)
                [("paths", .obj (dictMerge defaultPaths p))] := by
        intro X hX
        simp [load_config, hX, hmm]
      rw [hload2 (load_config data) hp2, jlookup_dictMerge]
      by_cases hk : k = "paths"
      · subst hk
        rw [hsingP, hlook]
      · have hsing : jlookup
            [("paths", JValue.obj (dictMerge defaultPaths p))] k = none := by
          simp only [jlookup]
          rw [if_neg (fun h => hk h.symm)]
        rw [hsing, jlookup_dictMerge]
        cases hv : jlookup (load_config data) k with
        | some v => simp
        | none =>
            have hDnone : jlookup DEFAULT_CONFIG k = none := by
              rw [hld, jlookup_dictMerge, hsing, jlookup_dictMerge] at hv
              cases hd : jlookup data k with
              | some w => rw [hd] at hv; simp at hv
              | none => rw [hd] at hv; simpa using hv
            simp [hDnone]

end Votryx
